import Mathlib

/-!
Verification of the EventFlow delivery coordinator and batch buffer engine.

This file gives a shallow embedding of the reliability core of the EventFlow
repository and proves the specified properties about it:

* `src/services/eventProcessor.ts` — `processEvent`: the status state machine
  (PENDING, PROCESSING, PROCESSED, FAILED, DEAD_LETTER) with retry accounting
  (`MAX_RETRIES = 3`).
* `src/worker.ts` — the queue message handler: parse, process, ack/nack policy.
* `src/routes/admin.ts` — the replay route.
* `src/routes/events.ts` — the ingestion route (POST /events).
* `src/services/bigquery.ts` — the buffered bulk-write engine
  (`insertEvent`, `flushBuffer`, the bounded poll loop).

Database rows are modelled as explicit state values; each `prisma.event.update`
in the source becomes a pure record update, and the asynchronous/fallible
collaborators (the processing step, Pub/Sub publish, the BigQuery load job)
become explicit outcome parameters (oracles), so that every definition is
executable on concrete inputs.
-/

set_option autoImplicit false

namespace EventFlow

/-- Event status enumeration, mirroring the Prisma `EventStatus` enum. -/
inductive EventStatus
  | PENDING
  | PROCESSING
  | PROCESSED
  | FAILED
  | DEAD_LETTER
deriving DecidableEq, Repr

/-- The mutable fields of an event row that the coordinator touches.
Timestamps are `Option Nat` (null / set at time `t`); `failureReason` is the
last failure message.  Identity, payload and `createdAt` are immutable and
opaque to every operation modelled here, so they are omitted. -/
structure Event where
  status : EventStatus
  retryCount : Nat
  processedAt : Option Nat
  failedAt : Option Nat
  failureReason : Option String
deriving DecidableEq, Repr

/-- Constant `MAX_RETRIES` from `src/services/eventProcessor.ts` line 4. -/
def MAX_RETRIES : Nat := 3

/-- Outcome of the pluggable processing step (`simulateProcessing`): opaque
business logic that either succeeds or throws with a message. -/
inductive ProcOutcome
  | success
  | failure (reason : String)

/-- First write of `processEvent`: `update data: { status: 'PROCESSING' }`
(eventProcessor.ts lines 10-13). -/
def markProcessing (e : Event) : Event :=
  { e with status := .PROCESSING }

/-- Success write of `processEvent`: `status: 'PROCESSED', processedAt: new Date()`
(eventProcessor.ts lines 23-29). -/
def markProcessed (e : Event) (now : Nat) : Event :=
  { e with status := .PROCESSED, processedAt := some now }

/-- Failure write of `processEvent` (eventProcessor.ts lines 35-59):
`retryCount = event.retryCount + 1`; DEAD_LETTER when `retryCount >= MAX_RETRIES`,
otherwise FAILED; both set `failedAt` and `failureReason`. -/
def markFailure (e : Event) (reason : String) (now : Nat) : Event :=
  let rc := e.retryCount + 1
  if MAX_RETRIES ≤ rc then
    { e with status := .DEAD_LETTER, failedAt := some now,
             failureReason := some reason, retryCount := rc }
  else
    { e with status := .FAILED, failedAt := some now,
             failureReason := some reason, retryCount := rc }

/-- The whole of `processEvent(eventId)`: mark PROCESSING, run the processing
step, then write the terminal state.  Returns the final stored event and
whether the call rethrew the processing error (it rethrows exactly on
failure, eventProcessor.ts line 63). -/
def processEvent (e : Event) (out : ProcOutcome) (now : Nat) : Event × Bool :=
  let e1 := markProcessing e
  match out with
  | .success => (markProcessed e1 now, false)
  | .failure reason => (markFailure e1 reason now, true)

/-! Worker message handler, `src/worker.ts` lines 15-57. -/

/-- Raw content of a Pub/Sub message: either `JSON.parse` throws (`malformed`)
or it yields an object whose `eventId` field may be absent. -/
inductive MsgData
  | malformed
  | parsed (eventId : Option String)

/-- The two guards of the worker: a parse error is caught (worker.ts line 21)
and a falsy `eventId` — absent or empty string — is rejected (line 27).
Returns the event id only for a well-formed message. -/
def extractEventId : MsgData → Option String
  | .malformed => none
  | .parsed none => none
  | .parsed (some s) => if s = "" then none else some s

/-- Acknowledge / negative-acknowledge signal sent to the queue. -/
inductive MsgAction
  | ack
  | nack
deriving DecidableEq, Repr

/-- Result of handling one message: the signal sent, whether `processEvent`
was invoked, and the event row after the handler ran. -/
structure HandleResult where
  action : MsgAction
  invokedProcess : Bool
  finalEvent : Event
deriving DecidableEq, Repr

/-- The `subscription.on('message')` handler (worker.ts lines 15-57).
Malformed messages are acked without touching the store.  Otherwise
`processEvent` runs; on success the message is acked; on failure the worker
re-reads the event's current `retryCount` from the store (here: the value
just written, since the store is threaded sequentially) and acks iff it is
at least 3 (the literal in worker.ts line 48), else nacks. -/
def handleMessage (m : MsgData) (e : Event) (out : ProcOutcome) (now : Nat) :
    HandleResult :=
  match extractEventId m with
  | none => ⟨.ack, false, e⟩
  | some _ =>
    match out with
    | .success => ⟨.ack, true, (processEvent e .success now).1⟩
    | .failure r =>
      let e2 := (processEvent e (.failure r) now).1
      ⟨if 3 ≤ e2.retryCount then .ack else .nack, true, e2⟩

/-- State of one queued message together with the stored event: `acked` means
the queue will not redeliver it (ack was sent). -/
structure WorkerMsgState where
  event : Event
  acked : Bool
deriving DecidableEq, Repr

/-- One failing delivery attempt as driven by the worker: possible only while
the message is not acked; runs the failure path of `processEvent` and then
applies the worker's ack decision on the re-read `retryCount`. -/
def failAttempt (reason : String) (now : Nat) (ws : WorkerMsgState) :
    Option WorkerMsgState :=
  if ws.acked then none
  else
    let e2 := (processEvent ws.event (.failure reason) now).1
    some ⟨e2, decide (3 ≤ e2.retryCount)⟩

/-- A freshly ingested event: `status: 'PENDING'`, `retryCount` defaults to 0,
timestamps and failure reason null (routes/events.ts lines 37-44). -/
def freshEvent : Event :=
  { status := .PENDING, retryCount := 0, processedAt := none,
    failedAt := none, failureReason := none }

/-- N consecutive failing processing attempts on a fresh event,
`none` when the N-th attempt cannot occur because the message was
already acknowledged. -/
def failN (reason : String) (now : Nat) : Nat → Option WorkerMsgState
  | 0 => some ⟨freshEvent, false⟩
  | n + 1 => (failN reason now n).bind (failAttempt reason now)

/-! Replay route, `src/routes/admin.ts` lines 68-109. -/

/-- Response of POST /events/:id/replay (the event is assumed found; the 404
branch concerns a missing row, which has no event state to reason about). -/
inductive ReplayResult
  | alreadyProcessed (dbEvent : Event)
  | replayed (dbEvent : Event) (published : List String)
  | publishFailed (dbEvent : Event)
deriving DecidableEq, Repr

/-- The reset write of the replay route (admin.ts lines 84-92). -/
def replayUpdate (e : Event) : Event :=
  { e with status := .PENDING, failedAt := none, failureReason := none,
           retryCount := 0 }

/-- POST /events/:id/replay: rejected with 400 when the event is PROCESSED
(admin.ts line 79) with no write; otherwise the reset write runs and the
event id is republished (`publishOk` is the publish oracle; on publish
failure the route raises 500 but the reset write has already happened). -/
def replayRoute (e : Event) (eid : String) (publishOk : Bool) : ReplayResult :=
  if e.status = .PROCESSED then .alreadyProcessed e
  else if publishOk then .replayed (replayUpdate e) [eid]
  else .publishFailed (replayUpdate e)

/-! Ingestion route, `src/routes/events.ts` (POST /events). -/

/-- The write of the publish-failure branch (events.ts lines 74-81): status
FAILED, `failedAt`, fixed `failureReason`; `retryCount` is not touched. -/
def pubFailUpdate (e : Event) (now : Nat) : Event :=
  { e with status := .FAILED, failedAt := some now,
           failureReason := some "Failed to publish to Pub/Sub" }

/-- Observable outcome of POST /events: whether the response was the 201
success, the final stored event, the ids handed to the BigQuery buffer, and
the ids published on the delivery channel. -/
structure IngestOutcome where
  success : Bool
  dbEvent : Event
  bqBuffered : List String
  published : List String
deriving DecidableEq, Repr

/-- POST /events (events.ts lines 28-91): create the PENDING event; try the
BigQuery insert, swallowing any error (`bqOk` oracle, lines 49-66); publish
to Pub/Sub (`pubOk` oracle): on failure mark the event FAILED and answer 500
(lines 69-83), else answer 201. -/
def postEventRoute (eid : String) (bqOk pubOk : Bool) (now : Nat) :
    IngestOutcome :=
  let e := freshEvent
  let buf : List String := if bqOk then [eid] else []
  if pubOk then ⟨true, e, buf, [eid]⟩
  else ⟨false, pubFailUpdate e now, buf, []⟩

/-! Transition-graph model: the sequence of database writes an event row sees
across the operations of the system, at the granularity of individual
`prisma.event.update` calls. -/

/-- Operations that can hit one event after ingestion: a processing attempt
(successful or failing) driven by a delivered message, or a replay request. -/
inductive SysOp
  | procSuccess (now : Nat)
  | procFailure (reason : String) (now : Nat)
  | replay

/-- All database states an event row passes through while a list of
operations runs, starting from row `e` (exclusive of `e` itself).  Each
operation contributes the writes the source performs, in order: a processing
attempt writes the PROCESSING mark and then the terminal state
(eventProcessor.ts); replay writes the reset row unless the event is
PROCESSED, in which case it is rejected with no write (admin.ts line 79). -/
def traceFrom (e : Event) : List SysOp → List Event
  | [] => []
  | .procSuccess now :: ops =>
    let e1 := markProcessing e
    let e2 := markProcessed e1 now
    e1 :: e2 :: traceFrom e2 ops
  | .procFailure reason now :: ops =>
    let e1 := markProcessing e
    let e2 := markFailure e1 reason now
    e1 :: e2 :: traceFrom e2 ops
  | .replay :: ops =>
    if e.status = .PROCESSED then traceFrom e ops
    else replayUpdate e :: traceFrom (replayUpdate e) ops

/-- Full per-event history: the created PENDING row (events.ts lines 37-44),
the FAILED row when the Pub/Sub publish fails (lines 69-83), then the writes
of any run of subsequent operations. -/
def eventTrace : Bool → Nat → List SysOp → List Event
  | true, _, ops => freshEvent :: traceFrom freshEvent ops
  | false, now0, ops =>
    freshEvent :: pubFailUpdate freshEvent now0 ::
      traceFrom (pubFailUpdate freshEvent now0) ops

/-- The directed status graph of spec section 4.1: the edges the claim allows
(replay only from FAILED or DEAD_LETTER). -/
def specEdge : EventStatus → EventStatus → Bool
  | .PENDING, .PROCESSING => true
  | .PROCESSING, .PROCESSED => true
  | .PROCESSING, .FAILED => true
  | .PROCESSING, .DEAD_LETTER => true
  | .FAILED, .PENDING => true
  | .DEAD_LETTER, .PENDING => true
  | _, _ => false

/-- The status graph the code actually walks: `processEvent` marks PROCESSING
from whatever the prior status was (eventProcessor.ts lines 10-13 have no
status guard), replay resets any non-PROCESSED status to PENDING (admin.ts
line 79 only rejects PROCESSED), and the ingestion publish-failure branch
moves PENDING directly to FAILED (events.ts lines 74-81). -/
def codeEdge : EventStatus → EventStatus → Bool
  | _, .PROCESSING => true
  | .PROCESSING, .PROCESSED => true
  | .PROCESSING, .FAILED => true
  | .PROCESSING, .DEAD_LETTER => true
  | .FAILED, .PENDING => true
  | .DEAD_LETTER, .PENDING => true
  | .PROCESSING, .PENDING => true
  | .PENDING, .FAILED => true
  | _, _ => false

/-- Guard used to express entry restrictions: a write may set DEAD_LETTER or
PROCESSED only when the previous status was PROCESSING. -/
def terminalEntryEdge (a b : EventStatus) : Bool :=
  (b != .DEAD_LETTER || a == .PROCESSING) && (b != .PROCESSED || a == .PROCESSING)

/-- Checks that every consecutive pair of rows either keeps the status or
steps along `edge`. -/
def chainOkB (edge : EventStatus → EventStatus → Bool) : List Event → Bool
  | a :: b :: rest =>
    (a.status == b.status || edge a.status b.status) && chainOkB edge (b :: rest)
  | _ => true

/-! Batch buffer engine, `src/services/bigquery.ts` (`BigQueryService`). -/

/-- Constant `BATCH_SIZE` from bigquery.ts line 30. -/
def BATCH_SIZE : Nat := 10

/-- Constant `maxAttempts` of the load-job poll loop, bigquery.ts line 167. -/
def MAX_POLL_ATTEMPTS : Nat := 120

/-- Job state reported by `job.getMetadata()`: the code compares against the
strings DONE and ERROR; everything else (RUNNING, PENDING, an absent field)
is non-terminal. -/
inductive JobState
  | DONE
  | ERROR
  | RUNNING
  | PENDING
  | UNKNOWN
deriving DecidableEq, Repr

/-- The distinct ways a flush can fail, matching the throw sites of
`flushBuffer`: serialization / file write, `table.load` submission, poll
timeout (bigquery.ts line 189), and a job-reported error (lines 184, 195). -/
inductive FlushError
  | serializationError
  | submissionError
  | pollTimeout
  | jobError
deriving DecidableEq, Repr

/-- The poll loop of `flushBuffer` (bigquery.ts lines 165-180): up to `fuel`
calls of `getMetadata` (modelled by `poll`, returning the job state and the
number of entries in `status.errors`), stopping early when the state is DONE
or ERROR.  Returns the last metadata observed and the number of polls made. -/
def pollLoopGo (poll : Nat → JobState × Nat) :
    Nat → Nat → JobState × Nat → (JobState × Nat) × Nat
  | _, 0, last => (last, 0)
  | i, fuel + 1, _ =>
    let m := poll i
    if m.1 = .DONE ∨ m.1 = .ERROR then (m, 1)
    else
      let r := pollLoopGo poll (i + 1) fuel m
      (r.1, r.2 + 1)

/-- The poll loop as run by `flushBuffer`: starts at attempt 0 with
`MAX_POLL_ATTEMPTS` budget. -/
def pollJob (poll : Nat → JobState × Nat) : (JobState × Nat) × Nat :=
  pollLoopGo poll 0 MAX_POLL_ATTEMPTS (.UNKNOWN, 0)

/-- Outcome of the body of `flushBuffer` (bigquery.ts lines 148-197): a
serialization error or a submission error aborts before polling; otherwise
the poll loop runs and the post-loop checks apply: a non-DONE final state is
a job error if ERROR, else a timeout (lines 183-192); a DONE state with a
non-empty error list is a job error (lines 195-197); else success. -/
def flushBodyOutcome (serializeOk submitOk : Bool)
    (poll : Nat → JobState × Nat) : Option FlushError :=
  if serializeOk = false then some .serializationError
  else if submitOk = false then some .submissionError
  else
    let st := (pollJob poll).1.1
    let errs := (pollJob poll).1.2
    if st ≠ .DONE then
      if st = .ERROR then some .jobError else some .pollTimeout
    else if 0 < errs then some .jobError
    else none

/-- State of the buffer engine: the live in-memory sequence, the in-flight
flag, and the rows successfully delivered to the sink. -/
structure BQState (ρ : Type) where
  eventBuffer : List ρ
  isFlushing : Bool
  sink : List ρ
deriving DecidableEq, Repr

/-- The engine's initial state: empty buffer, no flush in flight. -/
def emptyBQ {ρ : Type} : BQState ρ := ⟨[], false, []⟩

/-- Appending one row at the tail of the live buffer
(`this.eventBuffer.push(row)`, bigquery.ts line 124). -/
def bufferPush {ρ : Type} (s : BQState ρ) (r : ρ) : BQState ρ :=
  { s with eventBuffer := s.eventBuffer ++ [r] }

/-- Appending several rows at the tail of the live buffer. -/
def pushAll {ρ : Type} (s : BQState ρ) (mid : List ρ) : BQState ρ :=
  { s with eventBuffer := s.eventBuffer ++ mid }

/-- Entry of `flushBuffer` (bigquery.ts lines 137-141): if a flush is already
in flight or the buffer is empty it returns at once with no state change
(`none`); otherwise it sets the in-flight flag and atomically swaps the live
sequence for an empty one, returning the swapped-out batch. -/
def flushBufferEnter {ρ : Type} (s : BQState ρ) : BQState ρ × Option (List ρ) :=
  if s.isFlushing || s.eventBuffer.isEmpty then (s, none)
  else ({ s with isFlushing := true, eventBuffer := [] }, some s.eventBuffer)

/-- Exit of `flushBuffer`: on success the batch is in the sink; on any failure
the batch is unshifted back onto the front of the live buffer (bigquery.ts
line 223).  Either way the in-flight flag is cleared (line 233). -/
def flushFinish {ρ : Type} (outcome : Option FlushError) (s : BQState ρ)
    (batch : List ρ) : BQState ρ :=
  match outcome with
  | none => { s with sink := s.sink ++ batch, isFlushing := false }
  | some _ => { s with eventBuffer := batch ++ s.eventBuffer, isFlushing := false }

/-- A full `flushBuffer` call with the interleavings the code permits: `mid`
is the list of rows appended by concurrent `insertEvent` calls while the
flush body's I/O is awaited (they land in the fresh sequence). -/
def flushBufferPhased {ρ : Type} (s : BQState ρ) (mid : List ρ)
    (serializeOk submitOk : Bool) (poll : Nat → JobState × Nat) : BQState ρ :=
  match flushBufferEnter s with
  | (s0, none) => s0
  | (s1, some batch) =>
    flushFinish (flushBodyOutcome serializeOk submitOk poll) (pushAll s1 mid) batch

/-- A `flushBuffer` call with no concurrent appends and a single success /
failure oracle (failure realized as a serialization error; every failure
kind produces the same state change, see `flushFinish`). -/
def flushBufferRun {ρ : Type} (ok : Bool) (s : BQState ρ) : BQState ρ :=
  flushBufferPhased s [] ok true (fun _ => (.DONE, 0))

/-- `insertEvent` (bigquery.ts lines 105-131): push the row at the tail, then
call `flushBuffer` iff the buffer length reached `BATCH_SIZE`.  Returns the
new state and the number of flush attempts made (0 or 1). -/
def insertEvent {ρ : Type} (ok : Bool) (r : ρ) (s : BQState ρ) : BQState ρ × Nat :=
  let s1 := bufferPush s r
  if BATCH_SIZE ≤ s1.eventBuffer.length then (flushBufferRun ok s1, 1)
  else (s1, 0)

/-- A sequence of `insertEvent` calls, each with its own flush oracle;
returns the final state and the total number of flush attempts. -/
def insertMany {ρ : Type} : BQState ρ → List (ρ × Bool) → BQState ρ × Nat
  | s, [] => (s, 0)
  | s, (r, ok) :: rest =>
    let p := insertEvent ok r s
    let q := insertMany p.1 rest
    (q.1, p.2 + q.2)

/-! Helper lemmas. -/

@[simp]
lemma markProcessing_status (e : Event) : (markProcessing e).status = .PROCESSING := rfl

@[simp]
lemma markProcessed_status (e : Event) (now : Nat) :
    (markProcessed e now).status = .PROCESSED := rfl

@[simp]
lemma replayUpdate_status (e : Event) : (replayUpdate e).status = .PENDING := rfl

@[simp]
lemma pubFailUpdate_status (e : Event) (now : Nat) :
    (pubFailUpdate e now).status = .FAILED := rfl

@[simp]
lemma freshEvent_status : freshEvent.status = .PENDING := rfl

@[simp]
lemma markProcessing_retryCount (e : Event) :
    (markProcessing e).retryCount = e.retryCount := rfl

lemma markFailure_status (e : Event) (r : String) (now : Nat) :
    (markFailure e r now).status =
      if MAX_RETRIES ≤ e.retryCount + 1 then .DEAD_LETTER else .FAILED := by
  simp only [markFailure]
  split <;> rfl

lemma markFailure_retryCount (e : Event) (r : String) (now : Nat) :
    (markFailure e r now).retryCount = e.retryCount + 1 := by
  simp only [markFailure]
  split <;> rfl

lemma processEvent_failure_fields (e : Event) (r : String) (t : Nat) :
    (processEvent e (.failure r) t).1.retryCount = e.retryCount + 1 ∧
    (processEvent e (.failure r) t).1.failedAt = some t ∧
    (processEvent e (.failure r) t).1.failureReason = some r ∧
    (processEvent e (.failure r) t).1.status =
      (if MAX_RETRIES ≤ e.retryCount + 1 then EventStatus.DEAD_LETTER else .FAILED) := by
  simp only [processEvent, markFailure, markProcessing_retryCount]
  split <;> simp_all [markProcessing]

lemma failN_zero (r : String) (t : Nat) :
    failN r t 0 = some ⟨freshEvent, false⟩ := rfl

lemma failN_one (r : String) (t : Nat) :
    failN r t 1 = some ⟨⟨.FAILED, 1, none, some t, some r⟩, false⟩ := rfl

lemma failN_two (r : String) (t : Nat) :
    failN r t 2 = some ⟨⟨.FAILED, 2, none, some t, some r⟩, false⟩ := rfl

lemma failN_three (r : String) (t : Nat) :
    failN r t 3 = some ⟨⟨.DEAD_LETTER, 3, none, some t, some r⟩, true⟩ := rfl

lemma failN_four_plus (r : String) (t : Nat) (n : Nat) :
    failN r t (n + 4) = none := by
  induction n with
  | zero => rfl
  | succ k ih =>
    show (failN r t (k + 4)).bind (failAttempt r t) = none
    rw [ih]
    rfl

/-! Theorems for the claims. -/

/-- C1: with the configured `maxRetries = 3`, after N consecutive processing
failures (as driven by the worker starting from a fresh event) the event's
`retryCount` equals `min N maxRetries` and its status is DEAD_LETTER exactly
when `N ≥ maxRetries` (FAILED otherwise, for `N ≥ 1`); moreover every failing
attempt increments `retryCount` by exactly one and sets `failedAt` and
`failureReason`. -/
theorem claim1_retry_accounting :
    (∀ (e : Event) (r : String) (t : Nat),
        (processEvent e (.failure r) t).1.retryCount = e.retryCount + 1 ∧
        (processEvent e (.failure r) t).1.failedAt = some t ∧
        (processEvent e (.failure r) t).1.failureReason = some r) ∧
    (∀ (N : Nat) (r : String) (t : Nat) (ws : WorkerMsgState),
        failN r t N = some ws →
          ws.event.retryCount = min N MAX_RETRIES ∧
          (ws.event.status = .DEAD_LETTER ↔ MAX_RETRIES ≤ N) ∧
          (N ≠ 0 → N < MAX_RETRIES → ws.event.status = .FAILED)) := by
  constructor
  · intro e r t
    have h := processEvent_failure_fields e r t
    exact ⟨h.1, h.2.1, h.2.2.1⟩
  · intro N r t ws h
    rcases N with _ | _ | _ | _ | n
    · rw [failN_zero] at h
      injection h with h
      subst h
      exact ⟨by simp [freshEvent], by simp [freshEvent, MAX_RETRIES],
        fun h0 _ => absurd rfl h0⟩
    · rw [failN_one] at h
      injection h with h
      subst h
      exact ⟨by simp [MAX_RETRIES], by simp [MAX_RETRIES], fun _ _ => rfl⟩
    · rw [failN_two] at h
      injection h with h
      subst h
      exact ⟨by simp [MAX_RETRIES], by simp [MAX_RETRIES], fun _ _ => rfl⟩
    · rw [failN_three] at h
      injection h with h
      subst h
      exact ⟨by simp [MAX_RETRIES], by simp [MAX_RETRIES],
        fun _ hlt => absurd hlt (by simp [MAX_RETRIES])⟩
    · rw [failN_four_plus] at h
      exact Option.noConfusion h

/-- Witness for C1 at N = 3 with a concrete failure reason and timestamp. -/
theorem claim1_retry_accounting_witness :
    ((⟨⟨.DEAD_LETTER, 3, none, some 5, some "boom"⟩, true⟩ :
        WorkerMsgState).event.retryCount = min 3 MAX_RETRIES) ∧
    ((⟨⟨.DEAD_LETTER, 3, none, some 5, some "boom"⟩, true⟩ :
        WorkerMsgState).event.status = .DEAD_LETTER ↔ MAX_RETRIES ≤ 3) := by
  have h := claim1_retry_accounting.2 3 "boom" 5
      ⟨⟨.DEAD_LETTER, 3, none, some 5, some "boom"⟩, true⟩ (by decide)
  exact ⟨h.1, h.2.1⟩

/-- C3: replaying a FAILED or DEAD_LETTER event performs the reset write
(status PENDING, `retryCount` 0, `failedAt` and `failureReason` cleared) and
republishes the event id; replaying a PROCESSED event is rejected with no
state change (the result carries the untouched event). -/
theorem claim3_replay_semantics :
    ∀ (e : Event) (eid : String),
      ((e.status = .FAILED ∨ e.status = .DEAD_LETTER) →
        replayRoute e eid true = .replayed (replayUpdate e) [eid] ∧
        (replayUpdate e).status = .PENDING ∧
        (replayUpdate e).retryCount = 0 ∧
        (replayUpdate e).failedAt = none ∧
        (replayUpdate e).failureReason = none) ∧
      (e.status = .PROCESSED →
        ∀ pub : Bool, replayRoute e eid pub = .alreadyProcessed e) := by
  intro e eid
  constructor
  · intro hst
    have hne : ¬e.status = .PROCESSED := by
      rcases hst with h | h <;> rw [h] <;> decide
    refine ⟨?_, rfl, rfl, rfl, rfl⟩
    rw [replayRoute, if_neg hne, if_pos rfl]
  · intro hp pub
    rw [replayRoute, if_pos hp]

/-- Witness for C3: a FAILED event is replayed; a PROCESSED event is
rejected unchanged. -/
theorem claim3_replay_semantics_witness :
    replayRoute ⟨.FAILED, 2, none, some 1, some "x"⟩ "id1" true
      = .replayed (replayUpdate ⟨.FAILED, 2, none, some 1, some "x"⟩) ["id1"] ∧
    replayRoute ⟨.PROCESSED, 0, some 4, none, none⟩ "id2" false
      = .alreadyProcessed ⟨.PROCESSED, 0, some 4, none, none⟩ :=
  ⟨((claim3_replay_semantics ⟨.FAILED, 2, none, some 1, some "x"⟩ "id1").1
      (Or.inl rfl)).1,
   (claim3_replay_semantics ⟨.PROCESSED, 0, some 4, none, none⟩ "id2").2 rfl false⟩

/-- C4: a message whose payload cannot be parsed into a valid event id
(unparseable JSON, missing or empty `eventId`) is acknowledged immediately;
`processEvent` is not invoked and the stored event is untouched. -/
theorem claim4_malformed_message_discarded :
    ∀ (m : MsgData) (e : Event) (out : ProcOutcome) (now : Nat),
      extractEventId m = none →
      handleMessage m e out now = ⟨.ack, false, e⟩ := by
  intro m e out now h
  simp only [handleMessage, h]

/-- Witness for C4 on an unparseable message. -/
theorem claim4_malformed_message_discarded_witness :
    handleMessage .malformed freshEvent .success 0 = ⟨.ack, false, freshEvent⟩ :=
  claim4_malformed_message_discarded .malformed freshEvent .success 0 rfl

/-- C5: for a well-formed message the worker acks on processing success; on
failure it decides from the re-read stored `retryCount` (the value the failing
`processEvent` call just wrote): ack exactly when it is at least 3, nack
(triggering redelivery) when below — equivalently, ack exactly on the
DEAD_LETTER outcome and nack exactly on the FAILED outcome. -/
theorem claim5_ack_nack_policy :
    ∀ (m : MsgData) (eid : String) (e : Event) (r : String) (now : Nat),
      extractEventId m = some eid →
      ((handleMessage m e .success now).action = .ack ∧
       (handleMessage m e .success now).invokedProcess = true ∧
       (handleMessage m e .success now).finalEvent.status = .PROCESSED) ∧
      ((handleMessage m e (.failure r) now).invokedProcess = true ∧
       (handleMessage m e (.failure r) now).finalEvent
          = (processEvent e (.failure r) now).1 ∧
       ((handleMessage m e (.failure r) now).action = .ack ↔
          3 ≤ (processEvent e (.failure r) now).1.retryCount) ∧
       ((handleMessage m e (.failure r) now).action = .ack ↔
          (processEvent e (.failure r) now).1.status = .DEAD_LETTER) ∧
       ((handleMessage m e (.failure r) now).action = .nack ↔
          (processEvent e (.failure r) now).1.status = .FAILED)) := by
  intro m eid e r now h
  have hf := processEvent_failure_fields e r now
  refine ⟨⟨?_, ?_, ?_⟩, ?_, ?_, ?_, ?_, ?_⟩
  · simp [handleMessage, h]
  · simp [handleMessage, h]
  · simp [handleMessage, h, processEvent, markProcessed]
  · simp [handleMessage, h]
  · simp [handleMessage, h]
  · simp only [handleMessage, h]
    by_cases h3 : 3 ≤ (processEvent e (.failure r) now).1.retryCount <;> simp [h3]
  · simp only [handleMessage, h]
    rw [hf.1, hf.2.2.2]
    simp only [MAX_RETRIES]
    by_cases h3 : 3 ≤ e.retryCount + 1 <;> simp [h3]
  · simp only [handleMessage, h]
    rw [hf.1, hf.2.2.2]
    simp only [MAX_RETRIES]
    by_cases h3 : 3 ≤ e.retryCount + 1 <;> simp [h3]

/-- Witness for C5 on a well-formed message over a fresh event. -/
theorem claim5_ack_nack_policy_witness :
    (handleMessage (.parsed (some "id")) freshEvent .success 7).action = .ack ∧
    ((handleMessage (.parsed (some "id")) freshEvent (.failure "x") 7).action = .nack ↔
      (processEvent freshEvent (.failure "x") 7).1.status = .FAILED) := by
  have h := claim5_ack_nack_policy (.parsed (some "id")) "id" freshEvent "x" 7 (by decide)
  exact ⟨h.1.1, h.2.2.2.2.2⟩

/-! C2: status transition graph. -/

lemma codeEdge_to_processing (s : EventStatus) : codeEdge s .PROCESSING = true := by
  cases s <;> rfl

lemma chainOkB_mono {f g : EventStatus → EventStatus → Bool}
    (hfg : ∀ a b, f a b = true → g a b = true) :
    ∀ l : List Event, chainOkB f l = true → chainOkB g l = true := by
  intro l
  induction l with
  | nil => intro h; exact h
  | cons a t ih =>
    cases t with
    | nil => intro _; rfl
    | cons b rest =>
      simp only [chainOkB, Bool.and_eq_true, Bool.or_eq_true]
      rintro ⟨h1 | h1, h2⟩
      · exact ⟨Or.inl h1, ih h2⟩
      · exact ⟨Or.inr (hfg _ _ h1), ih h2⟩

lemma traceFrom_chain : ∀ (ops : List SysOp) (e : Event),
    chainOkB codeEdge (e :: traceFrom e ops) = true := by
  intro ops
  induction ops with
  | nil => intro e; rfl
  | cons op ops ih =>
    intro e
    cases op with
    | procSuccess now =>
      simp only [traceFrom, chainOkB, markProcessing_status, markProcessed_status,
        Bool.and_eq_true, Bool.or_eq_true]
      exact ⟨Or.inr (codeEdge_to_processing e.status), Or.inr rfl, ih _⟩
    | procFailure r now =>
      simp only [traceFrom, chainOkB, markProcessing_status,
        Bool.and_eq_true, Bool.or_eq_true]
      refine ⟨Or.inr (codeEdge_to_processing e.status), Or.inr ?_, ih _⟩
      rw [markFailure_status]
      split <;> rfl
    | replay =>
      by_cases hp : e.status = .PROCESSED
      · simp only [traceFrom, if_pos hp]
        exact ih e
      · simp only [traceFrom, if_neg hp, chainOkB, replayUpdate_status,
          Bool.and_eq_true, Bool.or_eq_true]
        refine ⟨?_, ih _⟩
        cases hs : e.status with
        | PENDING => exact Or.inl rfl
        | PROCESSING => exact Or.inr rfl
        | PROCESSED => exact absurd hs hp
        | FAILED => exact Or.inr rfl
        | DEAD_LETTER => exact Or.inr rfl

/-- C2 counterexample: the claim's transition graph (spec section 4.1, with
replay only from FAILED or DEAD_LETTER) is violated by an actual trace: when
the Pub/Sub publish fails at ingestion, the event moves PENDING → FAILED
without ever being PROCESSING. -/
theorem claim2_spec_graph_counterexample :
    chainOkB specEdge (eventTrace false 0 []) = false := by decide

/-- C2 (amended): every consecutive pair of database writes in any event
history either keeps the status or steps along the graph the code actually
walks — the section 4.1 edges extended with PENDING → FAILED (ingestion
publish failure), re-dequeue marking PROCESSING from any prior status, and
replay accepted from PROCESSING as well; in particular DEAD_LETTER and
PROCESSED are only ever entered from PROCESSING, so no event reaches
DEAD_LETTER directly from PENDING. -/
theorem claim2_amended_status_graph :
    ∀ (pubOk : Bool) (now0 : Nat) (ops : List SysOp),
      chainOkB codeEdge (eventTrace pubOk now0 ops) = true ∧
      chainOkB terminalEntryEdge (eventTrace pubOk now0 ops) = true := by
  intro pubOk now0 ops
  have hcode : chainOkB codeEdge (eventTrace pubOk now0 ops) = true := by
    cases pubOk with
    | true => exact traceFrom_chain ops freshEvent
    | false =>
      simp only [eventTrace, chainOkB, freshEvent_status, pubFailUpdate_status,
        Bool.and_eq_true, Bool.or_eq_true]
      exact ⟨Or.inr rfl, traceFrom_chain ops _⟩
  refine ⟨hcode, chainOkB_mono ?_ _ hcode⟩
  intro a b
  cases a <;> cases b <;> decide

/-- C10: at the ingestion endpoint, a BigQuery insert failure does not fail
the request (the event is created, the id is published, the response is the
201 success, for either value of the BigQuery oracle), whereas a Pub/Sub
publish failure marks the new event FAILED with reason
"Failed to publish to Pub/Sub", leaves `retryCount` untouched, sets
`failedAt`, publishes nothing, and fails the request. -/
theorem claim10_ingestion_error_isolation :
    ∀ (eid : String) (bqOk : Bool) (now : Nat),
      (postEventRoute eid bqOk true now).success = true ∧
      (postEventRoute eid bqOk true now).dbEvent = freshEvent ∧
      (postEventRoute eid bqOk true now).published = [eid] ∧
      (postEventRoute eid bqOk false now).success = false ∧
      (postEventRoute eid bqOk false now).dbEvent.status = .FAILED ∧
      (postEventRoute eid bqOk false now).dbEvent.failureReason
        = some "Failed to publish to Pub/Sub" ∧
      (postEventRoute eid bqOk false now).dbEvent.retryCount
        = freshEvent.retryCount ∧
      (postEventRoute eid bqOk false now).dbEvent.failedAt = some now ∧
      (postEventRoute eid bqOk false now).published = [] := by
  intro eid bqOk now
  exact ⟨rfl, rfl, rfl, rfl, rfl, rfl, rfl, rfl, rfl⟩

/-! Batch buffer engine lemmas. -/

@[simp]
lemma bufferPush_eventBuffer {ρ : Type} (s : BQState ρ) (r : ρ) :
    (bufferPush s r).eventBuffer = s.eventBuffer ++ [r] := rfl

@[simp]
lemma bufferPush_isFlushing {ρ : Type} (s : BQState ρ) (r : ρ) :
    (bufferPush s r).isFlushing = s.isFlushing := rfl

@[simp]
lemma bufferPush_sink {ρ : Type} (s : BQState ρ) (r : ρ) :
    (bufferPush s r).sink = s.sink := rfl

lemma flushBodyOutcome_all_ok :
    flushBodyOutcome true true (fun _ => (.DONE, 0)) = none := rfl

lemma flushBodyOutcome_serialize_fail (submitOk : Bool) (poll : Nat → JobState × Nat) :
    flushBodyOutcome false submitOk poll = some .serializationError := rfl

lemma flushBufferRun_empty {ρ : Type} (ok : Bool) (s : BQState ρ)
    (h : s.eventBuffer = []) : flushBufferRun ok s = s := by
  simp [flushBufferRun, flushBufferPhased, flushBufferEnter, h]

lemma flushBufferRun_failure {ρ : Type} (s : BQState ρ) (h : s.isFlushing = false) :
    flushBufferRun false s = s := by
  obtain ⟨buf, fl, sk⟩ := s
  have hfl : fl = false := h
  subst hfl
  cases buf with
  | nil => exact flushBufferRun_empty false _ rfl
  | cons a t =>
    simp [flushBufferRun, flushBufferPhased, flushBufferEnter, flushBodyOutcome,
      flushFinish, pushAll]

lemma flushBufferRun_success {ρ : Type} (s : BQState ρ) (h : s.isFlushing = false)
    (hne : s.eventBuffer ≠ []) :
    flushBufferRun true s = ⟨[], false, s.sink ++ s.eventBuffer⟩ := by
  obtain ⟨buf, fl, sk⟩ := s
  have hfl : fl = false := h
  subst hfl
  cases buf with
  | nil => exact absurd rfl hne
  | cons a t => rfl

lemma insertEvent_trigger {ρ : Type} (s : BQState ρ) (r : ρ) (ok : Bool)
    (h : BATCH_SIZE ≤ s.eventBuffer.length + 1) :
    insertEvent ok r s = (flushBufferRun ok (bufferPush s r), 1) := by
  simp only [insertEvent, bufferPush_eventBuffer, List.length_append,
    List.length_singleton]
  rw [if_pos h]

lemma insertEvent_no_trigger {ρ : Type} (s : BQState ρ) (r : ρ) (ok : Bool)
    (h : s.eventBuffer.length + 1 < BATCH_SIZE) :
    insertEvent ok r s = (bufferPush s r, 0) := by
  simp only [insertEvent, bufferPush_eventBuffer, List.length_append,
    List.length_singleton]
  rw [if_neg (by omega)]

lemma insertMany_cons {ρ : Type} (s : BQState ρ) (r : ρ) (ok : Bool)
    (rest : List (ρ × Bool)) :
    insertMany s ((r, ok) :: rest) =
      ((insertMany (insertEvent ok r s).1 rest).1,
       (insertEvent ok r s).2 + (insertMany (insertEvent ok r s).1 rest).2) := rfl

lemma insertMany_attempts_invariant {ρ : Type} (l : List (ρ × Bool)) :
    ∀ s : BQState ρ, s.isFlushing = false →
      (insertMany s l).1.isFlushing = false ∧
      l.length + min s.eventBuffer.length (BATCH_SIZE - 1) ≤
        BATCH_SIZE * (insertMany s l).2 +
          min (insertMany s l).1.eventBuffer.length (BATCH_SIZE - 1) := by
  induction l with
  | nil =>
    intro s h
    exact ⟨h, by simp [insertMany]⟩
  | cons p rest ih =>
    obtain ⟨r, ok⟩ := p
    intro s h
    by_cases htr : BATCH_SIZE ≤ s.eventBuffer.length + 1
    · rw [insertMany_cons, insertEvent_trigger s r ok htr]
      cases ok with
      | true =>
        have hemp : (bufferPush s r).eventBuffer ≠ [] := by simp
        rw [flushBufferRun_success (bufferPush s r) (by simp [h]) hemp]
        have hih := ih ⟨[], false, (bufferPush s r).sink ++ (bufferPush s r).eventBuffer⟩ rfl
        refine ⟨hih.1, ?_⟩
        have h2 := hih.2
        simp only [List.length_nil, List.length_cons, BATCH_SIZE] at h2 ⊢
        omega
      | false =>
        rw [flushBufferRun_failure (bufferPush s r) (by simp [h])]
        have hih := ih (bufferPush s r) (by simp [h])
        refine ⟨hih.1, ?_⟩
        have h2 := hih.2
        simp only [bufferPush_eventBuffer, List.length_append, List.length_singleton,
          List.length_cons, BATCH_SIZE] at h2 ⊢
        omega
    · rw [insertMany_cons, insertEvent_no_trigger s r ok (by omega)]
      have hih := ih (bufferPush s r) (by simp [h])
      refine ⟨hih.1, ?_⟩
      have h2 := hih.2
      simp only [bufferPush_eventBuffer, List.length_append, List.length_singleton,
        List.length_cons, BATCH_SIZE] at h2 ⊢
      simp only [BATCH_SIZE] at htr
      omega

/-- C6: `insertEvent` appends at the tail and triggers a flush attempt
synchronously exactly when the buffer length reaches `BATCH_SIZE` (default
10); K appends trigger at least ⌊K / BATCH_SIZE⌋ flush attempts; and
appending exactly `BATCH_SIZE` records into an empty engine triggers exactly
one flush attempt, leaving the buffer empty on success. -/
theorem claim6_append_threshold_flush :
    (∀ (ρ : Type) (s : BQState ρ) (r : ρ) (ok : Bool),
        (insertEvent ok r s).2
            = (if BATCH_SIZE ≤ s.eventBuffer.length + 1 then 1 else 0) ∧
        (s.eventBuffer.length + 1 < BATCH_SIZE →
          (insertEvent ok r s).1.eventBuffer = s.eventBuffer ++ [r])) ∧
    (∀ (ρ : Type) (l : List (ρ × Bool)),
        l.length / BATCH_SIZE ≤ (insertMany emptyBQ l).2) ∧
    ((insertMany (emptyBQ (ρ := Nat))
        ((List.range BATCH_SIZE).map (fun n => (n, true)))).2 = 1 ∧
     (insertMany (emptyBQ (ρ := Nat))
        ((List.range BATCH_SIZE).map (fun n => (n, true)))).1.eventBuffer = []) := by
  refine ⟨?_, ?_, by decide, by decide⟩
  · intro ρ s r ok
    constructor
    · by_cases h : BATCH_SIZE ≤ s.eventBuffer.length + 1
      · rw [insertEvent_trigger s r ok h, if_pos h]
      · rw [insertEvent_no_trigger s r ok (by omega), if_neg h]
    · intro hlt
      rw [insertEvent_no_trigger s r ok hlt]
      simp
  · intro ρ l
    have h := (insertMany_attempts_invariant l emptyBQ rfl).2
    have hb : l.length < ((insertMany (emptyBQ (ρ := ρ)) l).2 + 1) * BATCH_SIZE := by
      simp only [emptyBQ, List.length_nil, BATCH_SIZE] at h ⊢
      omega
    exact Nat.lt_succ_iff.mp ((Nat.div_lt_iff_lt_mul (by decide)).mpr hb)

/-- Witness for C6: a single append below the threshold lands at the tail. -/
theorem claim6_append_threshold_flush_witness :
    (insertEvent true (0 : Nat) emptyBQ).1.eventBuffer
      = (emptyBQ : BQState Nat).eventBuffer ++ [0] :=
  (claim6_append_threshold_flush.1 Nat emptyBQ 0 true).2 (by decide)

/-- C7: when a flush actually starts (swapping out a batch) and its body
fails with any error kind, the whole batch is prepended back onto the live
buffer in original order, ahead of the records appended during the flush;
nothing reaches the sink and the total record count (buffer + sink) is
exactly the original plus the concurrent appends — no record is lost. -/
theorem claim7_failed_flush_requeues :
    ∀ (ρ : Type) (s s1 : BQState ρ) (batch mid : List ρ) (sOk subOk : Bool)
      (poll : Nat → JobState × Nat) (err : FlushError),
      flushBufferEnter s = (s1, some batch) →
      flushBodyOutcome sOk subOk poll = some err →
      (flushBufferPhased s mid sOk subOk poll).eventBuffer = batch ++ mid ∧
      batch = s.eventBuffer ∧
      (flushBufferPhased s mid sOk subOk poll).eventBuffer = s.eventBuffer ++ mid ∧
      (flushBufferPhased s mid sOk subOk poll).sink = s.sink ∧
      (flushBufferPhased s mid sOk subOk poll).eventBuffer.length +
          (flushBufferPhased s mid sOk subOk poll).sink.length
        = s.eventBuffer.length + mid.length + s.sink.length := by
  intro ρ s s1 batch mid sOk subOk poll err h1 h2
  have h1' := h1
  rw [flushBufferEnter] at h1'
  split at h1'
  · simp at h1'
  · injection h1' with ha hb
    injection hb with hb
    subst ha
    subst hb
    simp only [flushBufferPhased, h1, h2, flushFinish, pushAll]
    refine ⟨by simp, by simp, by simp, by simp, by simp⟩

/-- Witness for C7: a two-record batch fails to serialize while one record
arrives mid-flush; the batch returns to the front of the buffer. -/
theorem claim7_failed_flush_requeues_witness :
    (flushBufferPhased (⟨[1, 2], false, [5]⟩ : BQState Nat) [3] false true
        (fun _ => (.DONE, 0))).eventBuffer = [1, 2] ++ [3] ∧
    (flushBufferPhased (⟨[1, 2], false, [5]⟩ : BQState Nat) [3] false true
        (fun _ => (.DONE, 0))).sink = [5] := by
  have h := claim7_failed_flush_requeues Nat ⟨[1, 2], false, [5]⟩ ⟨[], true, [5]⟩
      [1, 2] [3] false true (fun _ => (.DONE, 0)) .serializationError (by decide) rfl
  exact ⟨h.1, h.2.2.2.1⟩

/-! C8: the poll loop is bounded. -/

lemma pollLoopGo_polls_le (poll : Nat → JobState × Nat) :
    ∀ (fuel i : Nat) (last : JobState × Nat),
      (pollLoopGo poll i fuel last).2 ≤ fuel := by
  intro fuel
  induction fuel with
  | zero => intro i last; exact Nat.le_refl 0
  | succ n ih =>
    intro i last
    simp only [pollLoopGo]
    split
    · exact Nat.succ_le_succ (Nat.zero_le n)
    · exact Nat.succ_le_succ (ih (i + 1) (poll i))

lemma pollLoopGo_nonterminal (poll : Nat → JobState × Nat) :
    ∀ (fuel i : Nat) (last : JobState × Nat),
      (pollLoopGo poll i fuel last).1.1 ≠ .DONE →
      (pollLoopGo poll i fuel last).1.1 ≠ .ERROR →
      (pollLoopGo poll i fuel last).2 = fuel := by
  intro fuel
  induction fuel with
  | zero => intro i last _ _; rfl
  | succ n ih =>
    intro i last hD hE
    by_cases hterm : (poll i).1 = .DONE ∨ (poll i).1 = .ERROR
    · have hred : pollLoopGo poll i (n + 1) last = (poll i, 1) := by
        simp only [pollLoopGo]
        rw [if_pos hterm]
      rw [hred] at hD hE
      rcases hterm with ht | ht
      · exact absurd ht hD
      · exact absurd ht hE
    · have hred : pollLoopGo poll i (n + 1) last
          = ((pollLoopGo poll (i + 1) n (poll i)).1,
             (pollLoopGo poll (i + 1) n (poll i)).2 + 1) := by
        simp only [pollLoopGo]
        rw [if_neg hterm]
      rw [hred] at hD hE ⊢
      show (pollLoopGo poll (i + 1) n (poll i)).2 + 1 = n + 1
      rw [ih (i + 1) (poll i) hD hE]

/-- C8: the load-job poll loop is bounded and total: it makes at most 120
`getMetadata` calls; when the job is still non-terminal after the cap the
loop has made exactly 120 polls and the flush fails with the timeout error;
an ERROR final state, or a DONE state with a non-empty error list, fails the
flush with the job-error failure; DONE with no errors succeeds. -/
theorem claim8_poll_loop_bounded :
    ∀ (poll : Nat → JobState × Nat) (st : JobState) (errs polls : Nat),
      pollJob poll = ((st, errs), polls) →
      polls ≤ MAX_POLL_ATTEMPTS ∧
      (st ≠ .DONE → st ≠ .ERROR →
        polls = MAX_POLL_ATTEMPTS ∧
        flushBodyOutcome true true poll = some .pollTimeout) ∧
      (st = .ERROR → flushBodyOutcome true true poll = some .jobError) ∧
      (st = .DONE → 0 < errs → flushBodyOutcome true true poll = some .jobError) ∧
      (st = .DONE → errs = 0 → flushBodyOutcome true true poll = none) := by
  intro poll st errs polls h
  have hout : flushBodyOutcome true true poll
      = (if (pollJob poll).1.1 ≠ .DONE then
          (if (pollJob poll).1.1 = .ERROR then some .jobError else some .pollTimeout)
         else if 0 < (pollJob poll).1.2 then some .jobError else none) := rfl
  rw [h] at hout
  refine ⟨?_, ?_, ?_, ?_, ?_⟩
  · have hle := pollLoopGo_polls_le poll MAX_POLL_ATTEMPTS 0 (.UNKNOWN, 0)
    rw [show pollLoopGo poll 0 MAX_POLL_ATTEMPTS (.UNKNOWN, 0)
        = ((st, errs), polls) from h] at hle
    exact hle
  · intro hD hE
    constructor
    · have hnt := pollLoopGo_nonterminal poll MAX_POLL_ATTEMPTS 0 (.UNKNOWN, 0)
        (by rw [show pollLoopGo poll 0 MAX_POLL_ATTEMPTS (.UNKNOWN, 0)
              = ((st, errs), polls) from h]; exact hD)
        (by rw [show pollLoopGo poll 0 MAX_POLL_ATTEMPTS (.UNKNOWN, 0)
              = ((st, errs), polls) from h]; exact hE)
      rw [show pollLoopGo poll 0 MAX_POLL_ATTEMPTS (.UNKNOWN, 0)
          = ((st, errs), polls) from h] at hnt
      exact hnt
    · rw [hout]
      simp [hD, hE]
  · intro hE
    subst hE
    rw [hout]
    simp
  · intro hD hpos
    subst hD
    rw [hout]
    simp [hpos]
  · intro hD hz
    subst hD
    subst hz
    rw [hout]
    simp

/-- Witness for C8: a job that never terminates is polled exactly 120 times
and the flush fails with a timeout. -/
theorem claim8_poll_loop_bounded_witness :
    (120 : Nat) ≤ MAX_POLL_ATTEMPTS ∧
    flushBodyOutcome true true (fun _ => (.RUNNING, 0)) = some .pollTimeout := by
  have h := claim8_poll_loop_bounded (fun _ => (.RUNNING, 0)) .RUNNING 0 120 (by decide)
  exact ⟨h.1, (h.2.1 (by decide) (by decide)).2⟩

/-- C9: at most one flush is in flight: while a flush is running (or the
buffer is empty) a further `flushBuffer` call — including one triggered by
an `insertEvent` that reached the threshold — returns immediately with no
state change and removes nothing from the buffer. -/
theorem claim9_single_flight :
    ∀ (ρ : Type) (s : BQState ρ),
      ((s.isFlushing = true ∨ s.eventBuffer = []) →
        flushBufferEnter s = (s, none)) ∧
      (∀ r : ρ, s.isFlushing = true →
        flushBufferEnter (bufferPush s r) = (bufferPush s r, none)) := by
  intro ρ s
  constructor
  · intro h
    have hc : (s.isFlushing || s.eventBuffer.isEmpty) = true := by
      rcases h with h | h <;> simp [h]
    rw [flushBufferEnter, if_pos hc]
  · intro r h
    have hc : ((bufferPush s r).isFlushing || (bufferPush s r).eventBuffer.isEmpty)
        = true := by
      simp [h]
    rw [flushBufferEnter, if_pos hc]

/-- Witness for C9: with a flush in flight, `flushBuffer` is a no-op even
after a push that reaches the threshold. -/
theorem claim9_single_flight_witness :
    flushBufferEnter (⟨[1], true, []⟩ : BQState Nat) = (⟨[1], true, []⟩, none) ∧
    flushBufferEnter (bufferPush (⟨[1], true, []⟩ : BQState Nat) 2)
      = (bufferPush (⟨[1], true, []⟩ : BQState Nat) 2, none) :=
  ⟨(claim9_single_flight Nat ⟨[1], true, []⟩).1 (Or.inl rfl),
   (claim9_single_flight Nat ⟨[1], true, []⟩).2 2 rfl⟩

end EventFlow
